import Mathlib

/-!
Shallow embedding of `scripts/metric_aggregator.py` (the coverage-metric
aggregation script) and proofs about it.

Python dictionaries are modelled as association lists `List (String × β)`
kept in insertion order, which matches CPython's dict semantics: assignment
to an existing key updates the value in place, assignment to a fresh key
appends at the end, and iteration walks insertion order.  The helpers
`dlookup` / `dinsert` / `dkeys` below implement exactly that discipline.

Machine-level caveats of the embedding are noted at each definition.
-/

set_option autoImplicit false
set_option maxRecDepth 8000

namespace MetricAggregator

/-! ### Python dict primitives -/

/-- Lookup in an insertion-ordered association list (Python `d[k]` / `d.get(k)`;
returns the first binding, and bindings are unique in any real dict). -/
def dlookup {β : Type} : List (String × β) → String → Option β
  | [], _ => none
  | (k', v) :: rest, k => if k' = k then some v else dlookup rest k

/-- Python `d[k] = v`: update the existing binding in place (keeping its
position) or append a fresh binding at the end. -/
def dinsert {β : Type} (k : String) (v : β) : List (String × β) → List (String × β)
  | [] => [(k, v)]
  | (k', v') :: rest => if k' = k then (k', v) :: rest else (k', v') :: dinsert k v rest

/-- Python `d.keys()`, in insertion order. -/
def dkeys {β : Type} (l : List (String × β)) : List String := l.map Prod.fst

/-- Python `d.get(k, d0)`. -/
def dlookupD {β : Type} (l : List (String × β)) (k : String) (d0 : β) : β :=
  (dlookup l k).getD d0

/-! ### Python string / int primitives -/

/-- Python's substring test `needle in haystack` on strings.  Note that in
Python the empty string is a substring of everything; `List.IsInfix`
agrees (the empty list is an infix of every list). -/
def pyInStr (needle haystack : String) : Bool :=
  decide (List.IsInfix needle.data haystack.data)

/-- Digit-string parser for `pyInt`. -/
def parseDigits (cs : List Char) : Option Nat :=
  if cs = [] then none
  else cs.foldlM (fun acc c => if c.isDigit then some (acc * 10 + (c.toNat - 48)) else none) 0

/-- Recursion core of `pySplitComma` (accumulates the current field in
reverse). -/
def splitCommaAux : List Char → List Char → List String
  | [], acc => [String.mk acc.reverse]
  | c :: cs, acc =>
    if c = ',' then String.mk acc.reverse :: splitCommaAux cs []
    else splitCommaAux cs (c :: acc)

/-- Python `s.split(",")`: cut at every comma, keeping empty fields
("a,,b" gives ["a", "", "b"], "a" gives ["a"]).  Structurally recursive so
that concrete runs reduce inside the kernel. -/
def pySplitComma (s : String) : List String :=
  splitCommaAux s.data []

/-- Python `int(s)` on the plain decimal strings this tool sees (an optional
sign followed by digits).  Python additionally strips surrounding whitespace
and allows underscores; no claim depends on those inputs.  `none` models the
`ValueError` raised on a non-numeric string. -/
def pyInt (s : String) : Option Int :=
  match s.data with
  | '-' :: rest => (parseDigits rest).map (fun n => -(n : Int))
  | '+' :: rest => (parseDigits rest).map (fun n => (n : Int))
  | cs => (parseDigits cs).map (fun n => (n : Int))

/-! ### Data model

`Metric` is modelled from the spec: the `Metric` record class lives in
`localstack.aws.handlers.metric_handler`, which is not part of this tree;
spec section 6 fixes its positional fields (test id, service, operation,
parameters, exception, response code, response data, xfail flag), all
strings as read from the CSV row. -/

structure Metric where
  node_id : String
  service : String
  operation : String
  parameters : String
  exception : String
  response_code : String
  response_data : String
  xfail : String
  deriving DecidableEq, Repr

/-- Positional construction `Metric(*row)`; a row with the wrong number of
fields raises `TypeError` (modelled as `Except.error`). -/
def metricOfRow : List String → Except String Metric
  | [n, s, o, p, e, rc, rd, x] => .ok ⟨n, s, o, p, e, rc, rd, x⟩
  | _ => .error "TypeError: Metric() wrong number of fields"

/-- One operation's coverage entry.  The Python op dict always carries the
key `invoked`; the keys `parameters`, `errors` and `tests` may be absent,
hence the `Option`s (`none` models an absent key). -/
structure OperationCov where
  invoked : Nat
  parameters : Option (List (String × Nat))
  errors : Option (List (String × Nat))
  tests : Option (List String)
  deriving DecidableEq, Repr

/-- Tier flags stored under the `service_attributes` key. -/
structure Attrs where
  pro : Bool
  community : Bool
  deriving DecidableEq, Repr

/-- One service's entry.  The Python service dict mixes the special key
`service_attributes` with the operation-name keys; catalog operation names
never collide with that key, so the attribute entry is modelled as a
separate field (`none` models the key having been deleted). -/
structure ServiceCov where
  service_attributes : Option Attrs
  ops : List (String × OperationCov)
  deriving DecidableEq, Repr

abbrev AggregateReport := List (String × ServiceCov)

/-- Except.isOk spelled out (the script has no recovery: an uncaught Python
exception aborts the run). -/
def exceptIsOk {α : Type} : Except String α → Bool
  | .ok _ => true
  | .error _ => false

deriving instance DecidableEq for Except

/-! ### Aggregation engine (`aggregate_recorded_raw_data`, lines 126-182)

The Python code mutates `recorded` in place through the aliases
`service = recorded[metric.service]` and `ops = service[metric.operation]`;
the embedding threads the updated entry back with `dinsert`, which updates
the existing binding in place, so the two agree.  A Python exception
(KeyError / ValueError / TypeError) propagates out of `main` and kills the
process before any output is written, so it is modelled as `Except.error`
discarding the in-memory state. -/

/-- Line 159's right-hand side `ops.get(exception, 0)`: a lookup in the
OPERATION dict (not the errors dict!).  Its keys are `invoked` (an int),
and possibly `parameters` / `errors` / `tests` (dict / dict / list, whose
use in `... + 1` would raise `TypeError`); any other key - in particular
every real exception name - is absent, so the default `0` is returned. -/
def opsGet (ops : OperationCov) (key : String) : Except String Nat :=
  if key = "invoked" then .ok ops.invoked
  else if key = "parameters" then
    match ops.parameters with
    | some _ => .error "TypeError: unsupported operand type(s) for +: dict and int"
    | none => .ok 0
  else if key = "errors" then
    match ops.errors with
    | some _ => .error "TypeError: unsupported operand type(s) for +: dict and int"
    | none => .ok 0
  else if key = "tests" then
    match ops.tests with
    | some _ => .error "TypeError: unsupported operand type(s) for +: list and int"
    | none => .ok 0
  else .ok 0

/-- Lines 156-168: `errors = ops.setdefault("errors", {})` followed by the
exception / response-code branch.  The caller passes `ops` with the
`errors` key already set-defaulted (field `errors` is `some`).  The
`for ... break` scan over `ops.get("errors", {}).keys()` is the first key
satisfying the substring test, i.e. `List.find?`. -/
def errorAccounting (ops : OperationCov) (m : Metric) : Except String OperationCov :=
  let errs := ops.errors.getD []
  if m.exception ≠ "" then
    match opsGet ops m.exception with
    | .error e => .error e
    | .ok prev => .ok { ops with errors := some (dinsert m.exception (prev + 1) errs) }
  else
    match pyInt m.response_code with
    | none => .error "ValueError: invalid literal for int()"
    | some code =>
      if 300 ≤ code then
        match (dkeys errs).find? (fun k => pyInStr k m.response_data) with
        | some k =>
          match dlookup errs k with
          | some v => .ok { ops with errors := some (dinsert k (v + 1) errs) }
          | none => .error "KeyError"
        | none => .ok ops
      else .ok ops

/-- Lines 171-176: parameter accounting.  An empty `parameters` string is
falsy, so `params.setdefault`/`get` create-or-bump `_none_`; otherwise each
comma-separated name must already be a key of `ops["parameters"]`
(`+= 1` raises KeyError on a missing name, and the subscript itself raises
if the op has no `parameters` dict at all). -/
def parameterAccounting (ops : OperationCov) (m : Metric) : Except String OperationCov :=
  if m.parameters = "" then
    let params := ops.parameters.getD []
    let params2 := dinsert "_none_" (dlookupD params "_none_" 0 + 1) params
    .ok { ops with parameters := some params2 }
  else
    match ops.parameters with
    | none => .error "KeyError: parameters"
    | some params =>
      match (pySplitComma m.parameters).foldlM
          (fun ps p =>
            match dlookup ps p with
            | some v => Except.ok (dinsert p (v + 1) ps)
            | none => Except.error "KeyError: parameter name") params with
      | .error e => .error e
      | .ok params2 => .ok { ops with parameters := some params2 }

/-- Lines 178-180: `tests = ops.setdefault("tests", [])` and append of
`node_id` when not already present. -/
def testAccounting (ops : OperationCov) (m : Metric) : OperationCov :=
  let tests := ops.tests.getD []
  if m.node_id ∈ tests then { ops with tests := some tests }
  else { ops with tests := some (tests ++ [m.node_id]) }

/-- Lines 146-180: fold one parsed record into the aggregate.  `path` is
the source file's path (used by the architecture filter), `cfa` is
`collect_for_arch`. -/
def foldRecord (cfa path : String) (recorded : AggregateReport) (m : Metric) :
    Except String AggregateReport :=
  if m.xfail = "True" then .ok recorded
  else if cfa ≠ "" ∧ pyInStr cfa path = false then .ok recorded
  else
    match dlookup recorded m.service with
    | none => .error "KeyError: service"
    | some service =>
      match dlookup service.ops m.operation with
      | none => .error "KeyError: operation"
      | some ops0 =>
        let ops1 : OperationCov := { ops0 with errors := some (ops0.errors.getD []) }
        match errorAccounting ops1 m with
        | .error e => .error e
        | .ok ops2 =>
          let ops3 : OperationCov := { ops2 with invoked := ops2.invoked + 1 }
          match parameterAccounting ops3 m with
          | .error e => .error e
          | .ok ops4 =>
            let ops5 := testAccounting ops4 m
            .ok (dinsert m.service
              { service with ops := dinsert m.operation ops5 service.ops } recorded)

/-- Record-level view of the ingestion loop: each record paired with the
path of the file it came from, folded in order. -/
def foldRecords (cfa : String) (init : AggregateReport) (l : List (String × Metric)) :
    Except String AggregateReport :=
  l.foldlM (fun acc pm => foldRecord cfa pm.1 acc pm.2) init

/-- Lines 139-143: architecture label inferred from the source path. -/
def archLabel (path : String) : String :=
  if pyInStr "arm64" path = true then "arm64"
  else if pyInStr "amd64" path = true then "amd64"
  else ""

/-- Lines 119-123: `row.append(arch); writer.writerow(row)` on the combined
raw-collection file, modelled as the list of rows written so far. -/
def append_row_to_raw_collection (collection : List (List String)) (row : List String)
    (arch : String) : List (List String) :=
  collection ++ [row ++ [arch]]

/-- In-memory state of one run: the rows written to the raw-collection file
and the aggregate being built. -/
structure RunState where
  rawCollection : List (List String)
  recorded : AggregateReport
  deriving DecidableEq, Repr

/-- Lines 137-180: the body of the per-row loop.  When `craw` is true the
row is appended to the raw collection first (before the xfail and
architecture checks); then the record is parsed and folded.  On a hard
error the whole `RunState` is discarded: in Python rows already written to
the raw-collection file do survive the crash, but the aggregation run
produces no output, and no claim concerns that partial file. -/
def processRow (craw : Bool) (cfa path : String) (st : RunState) (row : List String) :
    Except String RunState :=
  let st1 : RunState :=
    if craw then { st with rawCollection := append_row_to_raw_collection st.rawCollection row (archLabel path) }
    else st
  match metricOfRow row with
  | .error e => .error e
  | .ok m =>
    match foldRecord cfa path st1.recorded m with
    | .error e => .error e
    | .ok recorded2 => .ok { st1 with recorded := recorded2 }

/-- Lines 131-180: process one discovered file (header already skipped;
`file = (path, data rows)`). -/
def processFile (craw : Bool) (cfa : String) (st : RunState) (file : String × List (List String)) :
    Except String RunState :=
  file.2.foldlM (processRow craw cfa file.1) st

/-- Lines 126-182: the whole aggregation pass over the discovered files,
parametrised by the skeleton `init` built from the catalog (line 130). -/
def aggregate_recorded_raw_data (init : AggregateReport) (files : List (String × List (List String)))
    (craw : Bool) (cfa : String) : Except String RunState :=
  files.foldlM (processFile craw cfa) { rawCollection := [], recorded := init }

/-! ### Observation functions on the aggregate -/

/-- The `invoked` counter of `s.o` (0 when the service or operation is
absent). -/
def invokedOf (agg : AggregateReport) (s o : String) : Nat :=
  match dlookup agg s with
  | some sc =>
    match dlookup sc.ops o with
    | some oc => oc.invoked
    | none => 0
  | none => 0

/-- The parameter hit counter `s.o.parameters[p]` (0 when absent). -/
def paramOf (agg : AggregateReport) (s o p : String) : Nat :=
  match dlookup agg s with
  | some sc =>
    match dlookup sc.ops o with
    | some oc => dlookupD (oc.parameters.getD []) p 0
    | none => 0
  | none => 0

/-- The error hit counter `s.o.errors[e]` (0 when absent). -/
def errorOf (agg : AggregateReport) (s o e : String) : Nat :=
  match dlookup agg s with
  | some sc =>
    match dlookup sc.ops o with
    | some oc => dlookupD (oc.errors.getD []) e 0
    | none => 0
  | none => 0

/-- The `tests` list of `s.o` ([] when absent). -/
def testsOf (agg : AggregateReport) (s o : String) : List String :=
  match dlookup agg s with
  | some sc =>
    match dlookup sc.ops o with
    | some oc => oc.tests.getD []
    | none => []
  | none => []

/-! ### Coverage skeleton builder (`_init_service_metric_counter`, lines 70-98)

The service specification catalog (`SERVICE_PLUGINS.api_provider_specs` and
`load_service`) is an external read-only dependency; it is modelled as a
snapshot value.  A `load` of `none` models the `except Exception` path
(`load_service` or any catalog access inside the `try` raising), which
skips the service with a debug log. -/

/-- One operation as the catalog describes it: its name, the member names
of its input shape when the shape has a `members` attribute
(`hasattr(input_shape, "members")`), and its declared error-shape names
when the model has an `error_shapes` attribute. -/
structure CatalogOp where
  name : String
  inputMembers : Option (List String)
  errorShapes : Option (List String)
  deriving DecidableEq, Repr

/-- One catalog entry: the provider keys of `api_provider_specs[s]` and the
result of `load_service(s)` (`none` = raises). -/
structure CatalogService where
  providers : List String
  load : Option (List CatalogOp)
  deriving DecidableEq, Repr

abbrev Catalog := List (String × CatalogService)

/-- Lines 80-93: the zero-initialised attributes dict for one operation. -/
def mkOperationCov (op : CatalogOp) : OperationCov where
  invoked := 0
  parameters := op.inputMembers.map (fun ms => ms.foldl (fun ps n => dinsert n 0 ps) [])
  errors := op.errorShapes.map (fun es => es.foldl (fun xs e => dinsert e 0 xs) [])
  tests := none

/-- Lines 77-93: the `ops` dict for one loaded service (operation entries;
`service_attributes` is carried in the `ServiceCov` field). -/
def mkServiceOps (opsL : List CatalogOp) : List (String × OperationCov) :=
  opsL.foldl (fun os op => dinsert op.name (mkOperationCov op) os) []

/-- Lines 77-95: the full entry stored at `metric_recorder[s]`, including
`service_attributes = {"pro": "pro" in provider, "community": "default" in provider}`. -/
def mkServiceCov (providers : List String) (opsL : List CatalogOp) : ServiceCov where
  service_attributes := some { pro := providers.contains "pro",
                               community := providers.contains "default" }
  ops := mkServiceOps opsL

/-- Lines 74-97: one iteration of the service loop: a load failure leaves
the accumulator untouched (the `except` branch only logs), a success stores
the zero-initialised entry. -/
def initStep (acc : AggregateReport) (e : String × CatalogService) : AggregateReport :=
  match e.2.load with
  | none => acc
  | some opsL => dinsert e.1 (mkServiceCov e.2.providers opsL) acc

/-- Lines 70-98: build the skeleton, skipping services whose catalog entry
fails to load. -/
def _init_service_metric_counter (catalog : Catalog) : AggregateReport :=
  catalog.foldl initStep []

/-! ### Markdown report renderer (`create_readable_report`, lines 31-67)

The renderer both produces text (written to the report file one service
block at a time) and mutates the aggregate: line 43 executes
`del metrics[service]["service_attributes"]`.  The embedding returns the
list of written chunks together with the final value of `metrics`. -/

/-- Python `sorted` on strings compares code points lexicographically;
`pyStrLt` is that order on the underlying character lists. -/
def pyStrLt : List Char → List Char → Bool
  | [], [] => false
  | [], _ :: _ => true
  | _ :: _, [] => false
  | a :: as, b :: bs =>
    if a.toNat < b.toNat then true
    else if b.toNat < a.toNat then false
    else pyStrLt as bs

/-- Insertion step of `sortStrings`. -/
def insortStr (x : String) : List String → List String
  | [] => [x]
  | y :: ys => if pyStrLt y.data x.data then y :: insortStr x ys else x :: y :: ys

/-- Python `sorted(keys)` (ascending by code point).  Stability is
irrelevant here: dict keys are distinct. -/
def sortStrings : List String → List String
  | [] => []
  | x :: xs => insortStr x (sortStrings xs)

/-- Rendering of `f"{tested/counter*100:.2f}"` for the values that occur:
the hundredths of the percentage, rounded.  CPython formats the
double-precision quotient; this rational rounding agrees on all realistic
inputs, and no claim depends on this text. -/
def formatPct (tested counter : Nat) : String :=
  let scaled := (tested * 10000 + counter / 2) / counter
  toString (scaled / 100) ++ "." ++ (if scaled % 100 < 10 then "0" else "") ++ toString (scaled % 100)

def template_implemented_item : String := "- [X] "

def template_not_implemented_item : String := "- [ ] "

/-- Lines 20-28: one collapsible details block. -/
def _generate_details_block (details_title : String) (details : List (String × Nat)) : String :=
  let body := details.foldl
    (fun acc ec =>
      if ec.2 > 0 then acc ++ "  " ++ template_implemented_item ++ ec.1 ++ "\n"
      else acc ++ "  " ++ template_not_implemented_item ++ ec.1 ++ "\n") ""
  "  <details><summary>" ++ details_title ++ "</summary>\n\n" ++ body ++ "  </details>\n"

/-- Lines 49-62: the inner loop over `sorted(details.keys())`, accumulating
`operation_tested` and the text `tmp`.  `op_details.get("parameters")` and
`op_details.get("errors")` are truthy only for a present, non-empty dict. -/
def renderOps (ops : List (String × OperationCov)) : Except String (Nat × String) :=
  (sortStrings (dkeys ops)).foldlM
    (fun acc operation =>
      match dlookup ops operation with
      | none => .error "KeyError: operation"
      | some op_details =>
        let acc1 : Nat × String :=
          if op_details.invoked > 0 then
            (acc.1 + 1, acc.2 ++ template_implemented_item ++ operation ++ "\n")
          else
            (acc.1, acc.2 ++ template_not_implemented_item ++ operation ++ "\n")
        let tmp1 :=
          match op_details.parameters with
          | some ps => if ps ≠ [] then acc1.2 ++ _generate_details_block "parameters  hit" ps else acc1.2
          | none => acc1.2
        let tmp2 :=
          match op_details.errors with
          | some es => if es ≠ [] then tmp1 ++ _generate_details_block "errors hit" es else tmp1
          | none => tmp1
        Except.ok (acc1.1, tmp2))
    (0, "")

/-- Lines 34-67: one iteration of the service loop.  The accumulator is
(pending `output` text, chunks written so far, current `metrics`).  The
iteration deletes `service_attributes` from the service entry (line 43) and
appends `output` to the file, resetting it to "" (lines 65-67).  A missing
`service_attributes` key is a KeyError; zero operations is a
ZeroDivisionError at line 63. -/
def renderService (acc : String × List String × AggregateReport) (service : String) :
    Except String (String × List String × AggregateReport) :=
  let output := acc.1 ++ "## " ++ service ++ " ##\n"
  match dlookup acc.2.2 service with
  | none => .error "KeyError: service"
  | some details =>
    match details.service_attributes with
    | none => .error "KeyError: service_attributes"
    | some attrs =>
      let output := output ++
        (if !attrs.pro then "community\n"
         else if !attrs.community then "pro only\n"
         else "community, and pro features\n")
      let details2 : ServiceCov := { details with service_attributes := none }
      let metrics2 := dinsert service details2 acc.2.2
      let operation_counter := details2.ops.length
      match renderOps details2.ops with
      | .error e => .error e
      | .ok tested_tmp =>
        if operation_counter = 0 then .error "ZeroDivisionError"
        else
          let output := output ++ "<details><summary>" ++
            formatPct tested_tmp.1 operation_counter ++
            "% test coverage</summary>\n\n" ++ tested_tmp.2 ++ "\n</details>\n"
          .ok ("", acc.2.1 ++ [output ++ "\n"], metrics2)

/-- The effect of line 43 (`del metrics[service]["service_attributes"]`) on
one service entry. -/
def clearAttrs (sc : ServiceCov) : ServiceCov :=
  { sc with service_attributes := none }

/-- Lines 31-67: the whole renderer.  Returns the chunks appended to the
report file and the final (mutated) `metrics`. -/
def create_readable_report (metrics : AggregateReport) :
    Except String (List String × AggregateReport) :=
  let header := "# Metric Collection Report of Integration Tests #\n\n" ++
    "**__Disclaimer__**: naive calculation of test coverage - if operation is called at least once, it is considered as 'covered'.\n"
  match (sortStrings (dkeys metrics)).foldlM renderService (header, [], metrics) with
  | .error e => .error e
  | .ok acc => .ok (acc.2.1, acc.2.2)

/-! ### Concrete inputs used by witnesses and counterexamples -/

/-- A small aggregate: service `s` with operation `o`, pre-seeded parameter
`p1` and declared error `E1` (the shape `_init_service_metric_counter`
produces for a one-service catalog). -/
def exAgg : AggregateReport :=
  [("s", { service_attributes := some { pro := false, community := true },
           ops := [("o", { invoked := 0, parameters := some [("p1", 0)],
                           errors := some [("E1", 0)], tests := none })] })]

/-- Like `exAgg` but with no declared errors and no declared parameters. -/
def exAggNoErr : AggregateReport :=
  [("s", { service_attributes := some { pro := false, community := true },
           ops := [("o", { invoked := 0, parameters := none,
                           errors := none, tests := none })] })]

/-- Like `exAgg` but with `errors["E1"]` already at 1 (one earlier
occurrence of the exception). -/
def exAggE1 : AggregateReport :=
  [("s", { service_attributes := some { pro := false, community := true },
           ops := [("o", { invoked := 1, parameters := some [("p1", 0)],
                           errors := some [("E1", 1)], tests := some ["t0"] })] })]

/-- `exAgg` after the renderer has deleted `service_attributes`. -/
def exAggRendered : AggregateReport :=
  [("s", { service_attributes := none,
           ops := [("o", { invoked := 0, parameters := some [("p1", 0)],
                           errors := some [("E1", 0)], tests := none })] })]

/-- A record that raises the declared exception `E1`. -/
def mExc : Metric := ⟨"t2", "s", "o", "", "E1", "400", "", "False"⟩

/-- A record with no exception whose 404 response body mentions `E1`
(triggers the substring heuristic). -/
def mHeur : Metric := ⟨"t3", "s", "o", "", "", "404", "boom E1 happened", "False"⟩

/-- A record raising an exception name the catalog did not predeclare. -/
def mBoomExc : Metric := ⟨"tA", "s", "o", "", "Boom", "400", "", "False"⟩

/-- A heuristic-matching record whose body mentions the undeclared name. -/
def mBoomHeur : Metric := ⟨"tB", "s", "o", "", "", "404", "Boom happened", "False"⟩

/-- A plain successful record touching parameter `p1`. -/
def mW1 : Metric := ⟨"t1", "s", "o", "p1", "", "200", "", "False"⟩

/-- A record with `xfail` set to the exact string "True". -/
def mXfail : Metric := ⟨"t7", "s", "o", "p1", "E1", "400", "boom", "True"⟩

/-- A record with `xfail` set to "true" (lowercase - not suppressed). -/
def mXfailLower : Metric := ⟨"t10", "s", "o", "", "", "200", "", "true"⟩

/-- A record naming a service absent from the skeleton. -/
def mNoService : Metric := ⟨"t8", "nosuch", "o", "", "", "200", "", "False"⟩

/-- A raw CSV row (well-formed, xfail clear) used by the C6 witness. -/
def exRow : List String := ["t6", "s", "o", "", "", "200", "", "False"]

/-- A two-service catalog: `bad` fails to load, `good` loads with one
operation `Op1` (parameter `p1`, error `E1`). -/
def exCat : Catalog :=
  [("bad", { providers := ["default"], load := none }),
   ("good", { providers := ["default", "pro"],
              load := some [{ name := "Op1", inputMembers := some ["p1"],
                              errorShapes := some ["E1"] }] })]

/-! ### Per-record contribution to the counters

A record that survives the xfail and architecture checks contributes a
fixed amount to each `invoked` and parameter counter, independent of the
aggregate state; this is the backbone of the order-independence and
suppression proofs. -/

/-- Lines 147-151: the record survives both the xfail check and the
architecture filter. -/
def passes (cfa path : String) (m : Metric) : Bool :=
  (if m.xfail = "True" then false else true) &&
  (if cfa ≠ "" ∧ pyInStr cfa path = false then false else true)

/-- How much one record adds to `invoked` of `s.o`. -/
def invokedContrib (cfa path : String) (m : Metric) (s o : String) : Nat :=
  if passes cfa path m = true ∧ m.service = s ∧ m.operation = o then 1 else 0

/-- Number of occurrences of `p` in a list of names. -/
def countOcc (p : String) : List String → Nat
  | [] => 0
  | a :: as => (if a = p then 1 else 0) + countOcc p as

/-- How much one record adds to the parameter counter `s.o.parameters[p]`. -/
def paramContrib (cfa path : String) (m : Metric) (s o p : String) : Nat :=
  if passes cfa path m = true ∧ m.service = s ∧ m.operation = o then
    (if m.parameters = "" then (if p = "_none_" then 1 else 0)
     else countOcc p (pySplitComma m.parameters))
  else 0

/-! ### Dictionary and sorting lemmas -/

theorem dlookup_dinsert {β : Type} (l : List (String × β)) (k k' : String) (v : β) :
    dlookup (dinsert k v l) k' = if k' = k then some v else dlookup l k' := by
  induction l with
  | nil =>
    by_cases h : k' = k
    · subst h; simp [dinsert, dlookup]
    · simp [dinsert, dlookup, h, Ne.symm h]
  | cons hd tl ih =>
    obtain ⟨a, b⟩ := hd
    by_cases hak : a = k
    · subst hak
      by_cases h : k' = a
      · subst h; simp [dinsert, dlookup]
      · simp [dinsert, dlookup, h, Ne.symm h]
    · by_cases h : k' = k
      · subst h
        simp [dinsert, dlookup, hak, Ne.symm hak, ih]
      · by_cases hax : a = k'
        · subst hax
          simp [dinsert, dlookup, hak, h, ih]
        · simp [dinsert, dlookup, hak, h, hax, ih]

theorem dlookup_dinsert_self {β : Type} (l : List (String × β)) (k : String) (v : β) :
    dlookup (dinsert k v l) k = some v := by
  simp [dlookup_dinsert]

theorem dlookup_dinsert_ne {β : Type} (l : List (String × β)) (k k' : String) (v : β)
    (h : k' ≠ k) : dlookup (dinsert k v l) k' = dlookup l k' := by
  simp [dlookup_dinsert, h]

theorem dkeys_cons {β : Type} (a : String) (b : β) (tl : List (String × β)) :
    dkeys ((a, b) :: tl) = a :: dkeys tl := rfl

theorem mem_dkeys_of_dlookup {β : Type} (l : List (String × β)) (k : String) (v : β)
    (h : dlookup l k = some v) : k ∈ dkeys l := by
  induction l with
  | nil => simp [dlookup] at h
  | cons hd tl ih =>
    obtain ⟨a, b⟩ := hd
    rw [dkeys_cons]
    by_cases hak : a = k
    · subst hak; exact List.mem_cons_self _ _
    · simp only [dlookup, if_neg hak] at h
      exact List.mem_cons_of_mem _ (ih h)

theorem dlookup_eq_none_of_not_mem {β : Type} (l : List (String × β)) (k : String)
    (h : k ∉ dkeys l) : dlookup l k = none := by
  cases hl : dlookup l k with
  | none => rfl
  | some v => exact absurd (mem_dkeys_of_dlookup l k v hl) h

theorem dlookup_isSome_of_mem {β : Type} (l : List (String × β)) (k : String)
    (h : k ∈ dkeys l) : (dlookup l k).isSome := by
  induction l with
  | nil => simp [dkeys] at h
  | cons hd tl ih =>
    obtain ⟨a, b⟩ := hd
    rw [dkeys_cons] at h
    by_cases hak : a = k
    · simp [dlookup, hak]
    · rcases List.mem_cons.mp h with h' | h'
      · exact absurd h'.symm hak
      · simpa [dlookup, hak] using ih h'

theorem dkeys_dinsert_of_mem {β : Type} (l : List (String × β)) (k : String) (v : β)
    (h : k ∈ dkeys l) : dkeys (dinsert k v l) = dkeys l := by
  induction l with
  | nil => simp [dkeys] at h
  | cons hd tl ih =>
    obtain ⟨a, b⟩ := hd
    rw [dkeys_cons] at h
    by_cases hak : a = k
    · simp [dinsert, hak, dkeys]
    · rcases List.mem_cons.mp h with h' | h'
      · exact absurd h'.symm hak
      · simp only [dinsert, if_neg hak, dkeys_cons, ih h']

theorem mem_insortStr (s x : String) (l : List String) :
    s ∈ insortStr x l ↔ s = x ∨ s ∈ l := by
  induction l with
  | nil => simp [insortStr]
  | cons y ys ih =>
    by_cases h : pyStrLt y.data x.data
    · simp only [insortStr, if_pos h, List.mem_cons, ih]
      tauto
    · simp only [insortStr, if_neg h, List.mem_cons]

theorem mem_sortStrings (s : String) (l : List String) :
    s ∈ sortStrings l ↔ s ∈ l := by
  induction l with
  | nil => simp [sortStrings]
  | cons x xs ih => simp [sortStrings, mem_insortStr, ih]

theorem errorAccounting_frame (ops ops' : OperationCov) (m : Metric)
    (h : errorAccounting ops m = .ok ops') :
    ops'.invoked = ops.invoked ∧ ops'.parameters = ops.parameters ∧ ops'.tests = ops.tests := by
  by_cases hexc : m.exception = ""
  · cases hc : pyInt m.response_code with
    | none => simp [errorAccounting, hexc, hc] at h
    | some code =>
      by_cases hge : 300 ≤ code
      · cases hf : (dkeys (ops.errors.getD [])).find? (fun k => pyInStr k m.response_data) with
        | some k =>
          cases hl : dlookup (ops.errors.getD []) k with
          | some v =>
            simp [errorAccounting, hexc, hc, hge, hf, hl] at h
            subst h; simp
          | none => simp [errorAccounting, hexc, hc, hge, hf, hl] at h
        | none =>
          simp [errorAccounting, hexc, hc, hge, hf] at h
          subst h; simp
      · simp [errorAccounting, hexc, hc, hge] at h
        subst h; simp
  · cases hg : opsGet ops m.exception with
    | error e => simp [errorAccounting, hexc, hg] at h
    | ok prev =>
      simp [errorAccounting, hexc, hg] at h
      subst h; simp

theorem parameterAccounting_frame (ops ops' : OperationCov) (m : Metric)
    (h : parameterAccounting ops m = .ok ops') :
    ops'.invoked = ops.invoked ∧ ops'.errors = ops.errors ∧ ops'.tests = ops.tests := by
  by_cases hemp : m.parameters = ""
  · simp [parameterAccounting, hemp] at h
    subst h; simp
  · cases hp : ops.parameters with
    | none => simp [parameterAccounting, hemp, hp] at h
    | some params =>
      cases hfold : (pySplitComma m.parameters).foldlM
          (fun ps p =>
            match dlookup ps p with
            | some v => Except.ok (dinsert p (v + 1) ps)
            | none => Except.error "KeyError: parameter name") params with
      | error e => simp [parameterAccounting, hemp, hp, hfold] at h
      | ok params2 =>
        simp [parameterAccounting, hemp, hp, hfold] at h
        subst h; simp

/-- The inner `for p in metric.parameters.split(",")` loop bumps each
looked-up name by one; success means every name was found, and the final
count of every key grows by its number of occurrences in the list. -/
theorem paramLoop_count (l : List String) (ps ps' : List (String × Nat))
    (h : l.foldlM
        (fun ps p =>
          match dlookup ps p with
          | some v => Except.ok (dinsert p (v + 1) ps)
          | none => Except.error "KeyError: parameter name") ps = Except.ok ps') :
    ∀ p, dlookupD ps' p 0 = dlookupD ps p 0 + countOcc p l := by
  induction l generalizing ps with
  | nil =>
    simp only [List.foldlM_nil] at h
    cases h
    simp [countOcc]
  | cons a as ih =>
    rw [List.foldlM_cons] at h
    cases hl : dlookup ps a with
    | none => rw [hl] at h; cases h
    | some v =>
      rw [hl] at h
      simp only [Except.bind] at h
      intro p
      have step : dlookupD (dinsert a (v + 1) ps) p 0 =
          dlookupD ps p 0 + (if a = p then 1 else 0) := by
        by_cases hpa : p = a
        · subst hpa
          simp [dlookupD, dlookup_dinsert_self, hl]
        · simp [dlookupD, dlookup_dinsert_ne _ _ _ _ hpa]
          exact fun h' => hpa h'.symm
      have hih := ih (dinsert a (v + 1) ps) h p
      rw [hih, step]
      show _ = _ + ((if a = p then 1 else 0) + countOcc p as)
      omega

/-- The parameter-accounting stage changes counters exactly by the record's
parameter contribution. -/
theorem parameterAccounting_count (ops ops' : OperationCov) (m : Metric)
    (h : parameterAccounting ops m = .ok ops') (p : String) :
    dlookupD (ops'.parameters.getD []) p 0 =
      dlookupD (ops.parameters.getD []) p 0 +
      (if m.parameters = "" then (if p = "_none_" then 1 else 0)
       else countOcc p (pySplitComma m.parameters)) := by
  by_cases hemp : m.parameters = ""
  · simp [parameterAccounting, hemp] at h
    subst h
    simp only [hemp, if_pos rfl]
    by_cases hpn : p = "_none_"
    · subst hpn
      simp [dlookupD, dlookup_dinsert_self]
    · simp [dlookupD, dlookup_dinsert_ne _ _ _ _ hpn, hpn]
  · cases hp : ops.parameters with
    | none => simp [parameterAccounting, hemp, hp] at h
    | some params =>
      cases hfold : (pySplitComma m.parameters).foldlM
          (fun ps p =>
            match dlookup ps p with
            | some v => Except.ok (dinsert p (v + 1) ps)
            | none => Except.error "KeyError: parameter name") params with
      | error e => simp [parameterAccounting, hemp, hp, hfold] at h
      | ok params2 =>
        simp [parameterAccounting, hemp, hp, hfold] at h
        subst h
        simp only [hemp, if_neg hemp]
        simpa [hp] using paramLoop_count _ params params2 hfold p

theorem testAccounting_frame (ops : OperationCov) (m : Metric) :
    (testAccounting ops m).invoked = ops.invoked ∧
    (testAccounting ops m).parameters = ops.parameters ∧
    (testAccounting ops m).errors = ops.errors := by
  by_cases hmem : m.node_id ∈ ops.tests.getD [] <;> simp [testAccounting, hmem]

theorem testAccounting_mem (ops : OperationCov) (m : Metric) :
    m.node_id ∈ (testAccounting ops m).tests.getD [] := by
  by_cases hmem : m.node_id ∈ ops.tests.getD [] <;> simp [testAccounting, hmem]

/-- Anatomy of a successful `foldRecord`: either the record was suppressed
(xfail or architecture filter) and the aggregate is untouched, or it passed
and the result is the pointwise update of the target operation through the
three accounting stages. -/
theorem foldRecord_ok_cases (cfa path : String) (agg agg' : AggregateReport) (m : Metric)
    (h : foldRecord cfa path agg m = .ok agg') :
    (passes cfa path m = false ∧ agg' = agg) ∨
    (passes cfa path m = true ∧ ∃ sc ops0 ops2 ops4,
      dlookup agg m.service = some sc ∧
      dlookup sc.ops m.operation = some ops0 ∧
      errorAccounting { ops0 with errors := some (ops0.errors.getD []) } m = .ok ops2 ∧
      parameterAccounting { ops2 with invoked := ops2.invoked + 1 } m = .ok ops4 ∧
      agg' = dinsert m.service
        { sc with ops := dinsert m.operation (testAccounting ops4 m) sc.ops } agg) := by
  by_cases hx : m.xfail = "True"
  · simp [foldRecord, hx] at h
    exact Or.inl ⟨by simp [passes, hx], h.symm⟩
  · by_cases hf : cfa ≠ "" ∧ pyInStr cfa path = false
    · simp [foldRecord, hx, hf] at h
      exact Or.inl ⟨by simp [passes, hx, hf], h.symm⟩
    · have hp : passes cfa path m = true := by simp [passes, hx, hf]
      refine Or.inr ⟨hp, ?_⟩
      cases hs : dlookup agg m.service with
      | none => simp [foldRecord, hx, hf, hs] at h
      | some sc =>
        cases ho : dlookup sc.ops m.operation with
        | none => simp [foldRecord, hx, hf, hs, ho] at h
        | some ops0 =>
          cases he : errorAccounting { ops0 with errors := some (ops0.errors.getD []) } m with
          | error e => simp [foldRecord, hx, hf, hs, ho, he] at h
          | ok ops2 =>
            cases hpar : parameterAccounting { ops2 with invoked := ops2.invoked + 1 } m with
            | error e => simp [foldRecord, hx, hf, hs, ho, he, hpar] at h
            | ok ops4 =>
              refine ⟨sc, ops0, ops2, ops4, rfl, ho, he, hpar, ?_⟩
              simp [foldRecord, hx, hf, hs, ho, he, hpar] at h
              exact h.symm

theorem invokedOf_eq (agg : AggregateReport) (s o : String) (sc : ServiceCov)
    (oc : OperationCov) (hs : dlookup agg s = some sc) (ho : dlookup sc.ops o = some oc) :
    invokedOf agg s o = oc.invoked := by
  simp [invokedOf, hs, ho]

theorem paramOf_eq (agg : AggregateReport) (s o p : String) (sc : ServiceCov)
    (oc : OperationCov) (hs : dlookup agg s = some sc) (ho : dlookup sc.ops o = some oc) :
    paramOf agg s o p = dlookupD (oc.parameters.getD []) p 0 := by
  simp [paramOf, hs, ho]

theorem errorOf_eq (agg : AggregateReport) (s o e : String) (sc : ServiceCov)
    (oc : OperationCov) (hs : dlookup agg s = some sc) (ho : dlookup sc.ops o = some oc) :
    errorOf agg s o e = dlookupD (oc.errors.getD []) e 0 := by
  simp [errorOf, hs, ho]

theorem testsOf_eq (agg : AggregateReport) (s o : String) (sc : ServiceCov)
    (oc : OperationCov) (hs : dlookup agg s = some sc) (ho : dlookup sc.ops o = some oc) :
    testsOf agg s o = oc.tests.getD [] := by
  simp [testsOf, hs, ho]

/-- Replacing the target operation's entry only affects the target's
observations: any (s, o) other than (m.service, m.operation) reads the same
`OperationCov` before and after. -/
theorem observations_congr (agg : AggregateReport) (msvc mop s o : String)
    (sc : ServiceCov) (hs : dlookup agg msvc = some sc) (newOc : OperationCov)
    (hne : ¬(msvc = s ∧ mop = o)) :
    let agg' := dinsert msvc { sc with ops := dinsert mop newOc sc.ops } agg
    invokedOf agg' s o = invokedOf agg s o ∧
    (∀ p, paramOf agg' s o p = paramOf agg s o p) ∧
    (∀ e, errorOf agg' s o e = errorOf agg s o e) ∧
    testsOf agg' s o = testsOf agg s o := by
  intro agg'
  by_cases hsm : msvc = s
  · subst hsm
    have hom : mop ≠ o := fun hh => hne ⟨rfl, hh⟩
    have h1 : dlookup agg' msvc = some { sc with ops := dinsert mop newOc sc.ops } :=
      dlookup_dinsert_self _ _ _
    have h2 : dlookup (dinsert mop newOc sc.ops) o = dlookup sc.ops o :=
      dlookup_dinsert_ne _ _ _ _ (fun hh => hom hh.symm)
    cases ho : dlookup sc.ops o with
    | none =>
      refine ⟨?_, fun p => ?_, fun e => ?_, ?_⟩ <;>
        simp [invokedOf, paramOf, errorOf, testsOf, h1, hs, h2, ho]
    | some oc =>
      refine ⟨?_, fun p => ?_, fun e => ?_, ?_⟩ <;>
        simp [invokedOf, paramOf, errorOf, testsOf, h1, hs, h2, ho]
  · have h1 : dlookup agg' s = dlookup agg s :=
      dlookup_dinsert_ne _ _ _ _ (fun hh => hsm hh.symm)
    refine ⟨?_, fun p => ?_, fun e => ?_, ?_⟩ <;>
      simp [invokedOf, paramOf, errorOf, testsOf, h1]

/-- Every successful `foldRecord` adds exactly the record's contribution to
every `invoked` counter and every parameter counter; the contribution
depends only on the record, its path, and the filter - not on the state. -/
theorem foldRecord_measures (cfa path : String) (agg agg' : AggregateReport) (m : Metric)
    (h : foldRecord cfa path agg m = .ok agg') :
    (∀ s o, invokedOf agg' s o = invokedOf agg s o + invokedContrib cfa path m s o)
    ∧ (∀ s o p, paramOf agg' s o p = paramOf agg s o p + paramContrib cfa path m s o p) := by
  rcases foldRecord_ok_cases cfa path agg agg' m h with ⟨hp, rfl⟩ |
    ⟨hp, sc, ops0, ops2, ops4, hs, ho, he, hpar, rfl⟩
  · constructor
    · intro s o
      simp [invokedContrib, hp]
    · intro s o p
      simp [paramContrib, hp]
  · have heF := errorAccounting_frame _ _ _ he
    have hpF := parameterAccounting_frame _ _ _ hpar
    have hpC := parameterAccounting_count _ _ _ hpar
    have htF := testAccounting_frame ops4 m
    have hs' : dlookup (dinsert m.service
        { sc with ops := dinsert m.operation (testAccounting ops4 m) sc.ops } agg) m.service
        = some { sc with ops := dinsert m.operation (testAccounting ops4 m) sc.ops } :=
      dlookup_dinsert_self _ _ _
    have ho' : dlookup (dinsert m.operation (testAccounting ops4 m) sc.ops) m.operation
        = some (testAccounting ops4 m) := dlookup_dinsert_self _ _ _
    constructor
    · intro s o
      by_cases htgt : m.service = s ∧ m.operation = o
      · obtain ⟨rfl, rfl⟩ := htgt
        rw [invokedOf_eq _ _ _ _ _ hs' ho', invokedOf_eq _ _ _ _ _ hs ho]
        rw [htF.1, hpF.1]
        simp only [invokedContrib, hp, true_and, and_self, if_pos rfl]
        have : ops2.invoked = ops0.invoked := by simpa using heF.1
        simp [this]
      · rw [(observations_congr _ _ _ _ _ _ hs _ htgt).1]
        simp [invokedContrib, fun hh : m.service = s ∧ m.operation = o => htgt hh]
    · intro s o p
      by_cases htgt : m.service = s ∧ m.operation = o
      · obtain ⟨rfl, rfl⟩ := htgt
        rw [paramOf_eq _ _ _ _ _ _ hs' ho', paramOf_eq _ _ _ _ _ _ hs ho]
        rw [htF.2.1]
        have h4 := hpC p
        simp only at h4
        rw [h4]
        have : ops2.parameters = ops0.parameters := by simpa using heF.2.1
        rw [this]
        simp [paramContrib, hp]
      · rw [(observations_congr _ _ _ _ _ _ hs _ htgt).2.1 p]
        simp [paramContrib, fun hh : m.service = s ∧ m.operation = o => htgt hh]

/-- Summing the per-record contributions over a successful fold: the final
`invoked` and parameter counters are the initial ones plus the sum of the
records' contributions, independent of processing order. -/
theorem foldRecords_measures (cfa : String) (init a : AggregateReport)
    (l : List (String × Metric)) (h : foldRecords cfa init l = .ok a) :
    (∀ s o, invokedOf a s o =
        invokedOf init s o + (l.map (fun pm => invokedContrib cfa pm.1 pm.2 s o)).sum)
    ∧ (∀ s o p, paramOf a s o p =
        paramOf init s o p + (l.map (fun pm => paramContrib cfa pm.1 pm.2 s o p)).sum) := by
  induction l generalizing init with
  | nil =>
    simp only [foldRecords, List.foldlM_nil] at h
    cases h
    simp
  | cons pm rest ih =>
    rw [foldRecords, List.foldlM_cons] at h
    cases hstep : foldRecord cfa pm.1 init pm.2 with
    | error e => rw [hstep] at h; cases h
    | ok mid =>
      rw [hstep] at h
      have hrest : foldRecords cfa mid rest = .ok a := h
      have h1 := foldRecord_measures _ _ _ _ _ hstep
      have h2 := ih mid hrest
      constructor
      · intro s o
        rw [h2.1 s o, h1.1 s o, List.map_cons, List.sum_cons]
        omega
      · intro s o p
        rw [h2.2 s o p, h1.2 s o p, List.map_cons, List.sum_cons]
        omega

/-! ### Claim theorems -/

/-- C7: a record whose `xfail` field is the string "True" is dropped before
any aggregation: `foldRecord` returns the aggregate unchanged, so `invoked`
is not incremented, `node_id` is not added to `tests`, and no parameter or
error count changes, regardless of the record's other fields. -/
theorem C7_xfail_suppression (cfa path : String) (agg : AggregateReport) (m : Metric)
    (hx : m.xfail = "True") : foldRecord cfa path agg m = .ok agg := by
  simp [foldRecord, hx]

theorem C7_xfail_suppression_witness :
    foldRecord "" "f1.csv" exAgg mXfail = .ok exAgg :=
  C7_xfail_suppression "" "f1.csv" exAgg mXfail rfl

/-- C10: xfail suppression compares against the exact string "True": for
any record whose `xfail` is any other string (e.g. "true", "TRUE", "1")
that passes the architecture filter and folds successfully, aggregation
proceeds normally, incrementing the operation's `invoked` by one and
recording `node_id` in its `tests`. -/
theorem C10_xfail_exact_string (cfa path : String) (agg agg' : AggregateReport) (m : Metric)
    (hx : m.xfail ≠ "True")
    (harch : cfa = "" ∨ pyInStr cfa path = true)
    (hok : foldRecord cfa path agg m = .ok agg') :
    invokedOf agg' m.service m.operation = invokedOf agg m.service m.operation + 1
    ∧ m.node_id ∈ testsOf agg' m.service m.operation := by
  have hp : passes cfa path m = true := by
    rcases harch with h | h <;> simp [passes, hx, h]
  constructor
  · have := (foldRecord_measures _ _ _ _ _ hok).1 m.service m.operation
    rw [this]
    simp [invokedContrib, hp]
  · rcases foldRecord_ok_cases cfa path agg agg' m hok with ⟨hp', _⟩ |
      ⟨_, sc, ops0, ops2, ops4, hs, ho, he, hpar, rfl⟩
    · rw [hp] at hp'; cases hp'
    · have hs' : dlookup (dinsert m.service
          { sc with ops := dinsert m.operation (testAccounting ops4 m) sc.ops } agg) m.service
          = some { sc with ops := dinsert m.operation (testAccounting ops4 m) sc.ops } :=
        dlookup_dinsert_self _ _ _
      have ho' : dlookup (dinsert m.operation (testAccounting ops4 m) sc.ops) m.operation
          = some (testAccounting ops4 m) := dlookup_dinsert_self _ _ _
      rw [testsOf_eq _ _ _ _ _ hs' ho']
      exact testAccounting_mem ops4 m

theorem C10_xfail_exact_string_witness :
    invokedOf ((foldRecord "" "f1.csv" exAgg mXfailLower).toOption.getD []) "s" "o" =
      invokedOf exAgg "s" "o" + 1
    ∧ "t10" ∈ testsOf ((foldRecord "" "f1.csv" exAgg mXfailLower).toOption.getD []) "s" "o" :=
  C10_xfail_exact_string "" "f1.csv" exAgg
    ((foldRecord "" "f1.csv" exAgg mXfailLower).toOption.getD []) mXfailLower
    (by decide) (Or.inl rfl) (by decide)

/-- C4 as stated is false: processing the same records in a different order
can change the final error COUNTS, not merely which name wins a tie.  With
no predeclared errors, an exception record creates the key `Boom`; a later
heuristic record then finds and bumps it (total 2), while in the opposite
order the heuristic record scans an empty key set, matches nothing, and the
total is 1. -/
theorem C4_counterexample :
    ((foldRecords "" exAggNoErr [("f1.csv", mBoomExc), ("f1.csv", mBoomHeur)]).toOption.map
        (fun a => errorOf a "s" "o" "Boom") = some 2)
    ∧ ((foldRecords "" exAggNoErr [("f1.csv", mBoomHeur), ("f1.csv", mBoomExc)]).toOption.map
        (fun a => errorOf a "s" "o" "Boom") = some 1) := by
  decide

/-- C4 amended: folding any two permutations of the same records (when both
orders fold without a hard error) yields identical final `invoked` counts
and identical final parameter counts for every operation; the final ERROR
counts, however, may genuinely differ with order (see the counterexample),
not just the winning name of a substring tie. -/
theorem C4_perm_invariance (cfa : String) (init : AggregateReport)
    (l₁ l₂ : List (String × Metric)) (hperm : l₁.Perm l₂) (a₁ a₂ : AggregateReport)
    (h₁ : foldRecords cfa init l₁ = .ok a₁) (h₂ : foldRecords cfa init l₂ = .ok a₂)
    (s o : String) :
    invokedOf a₁ s o = invokedOf a₂ s o ∧ ∀ p, paramOf a₁ s o p = paramOf a₂ s o p := by
  have m₁ := foldRecords_measures _ _ _ _ h₁
  have m₂ := foldRecords_measures _ _ _ _ h₂
  constructor
  · rw [m₁.1 s o, m₂.1 s o, (hperm.map _).sum_eq]
  · intro p
    rw [m₁.2 s o p, m₂.2 s o p, (hperm.map _).sum_eq]

theorem C4_perm_invariance_witness :
    invokedOf ((foldRecords "" exAgg [("f1.csv", mW1), ("f2.csv", mExc)]).toOption.getD []) "s" "o" =
      invokedOf ((foldRecords "" exAgg [("f2.csv", mExc), ("f1.csv", mW1)]).toOption.getD []) "s" "o"
    ∧ ∀ p, paramOf ((foldRecords "" exAgg [("f1.csv", mW1), ("f2.csv", mExc)]).toOption.getD []) "s" "o" p =
        paramOf ((foldRecords "" exAgg [("f2.csv", mExc), ("f1.csv", mW1)]).toOption.getD []) "s" "o" p :=
  C4_perm_invariance "" exAgg [("f1.csv", mW1), ("f2.csv", mExc)]
    [("f2.csv", mExc), ("f1.csv", mW1)]
    (List.Perm.swap ("f2.csv", mExc) ("f1.csv", mW1) [])
    ((foldRecords "" exAgg [("f1.csv", mW1), ("f2.csv", mExc)]).toOption.getD [])
    ((foldRecords "" exAgg [("f2.csv", mExc), ("f1.csv", mW1)]).toOption.getD [])
    (by decide) (by decide) "s" "o"

/-- C1 is the intent, but line 159 reads the previous count from the
OPERATION dict (`ops.get(exception, 0)`), not from the errors dict, so the
previous value is always 0 for a real exception name: folding an exception
record SETS `errors[exception]` to 1 instead of incrementing it.  Here
`errors["E1"]` is already 1 and stays 1 (the claim requires 2). -/
theorem C1_code_bug :
    (foldRecord "" "f1.csv" exAggE1 mExc).toOption.map
      (fun a => errorOf a "s" "o" "E1") = some 1 := by
  decide

/-- C2's monotonicity is violated through the same line-159 slip: two
heuristic matches push `errors["E1"]` to 2, then an exception record
OVERWRITES it with `ops.get("E1", 0) + 1 = 1`, so the counter decreases
from 2 to 1 mid-run. -/
theorem C2_code_bug :
    ((foldRecords "" exAgg [("f1.csv", mHeur), ("f1.csv", mHeur)]).toOption.map
        (fun a => errorOf a "s" "o" "E1") = some 2)
    ∧ ((foldRecords "" exAgg [("f1.csv", mHeur), ("f1.csv", mHeur), ("f1.csv", mExc)]).toOption.map
        (fun a => errorOf a "s" "o" "E1") = some 1) := by
  decide

/-- C6: with raw-collection re-emission on, every successfully processed
row lands in the raw collection tagged "arm64" / "amd64" / "" by substring
match on the source path, before any filtering; and a row parsed but then
excluded by xfail suppression or the architecture filter still lands there
while leaving the aggregate untouched. -/
theorem C6_raw_collection (cfa path : String) (st : RunState) (row : List String) :
    (∀ st', processRow true cfa path st row = .ok st' →
        st'.rawCollection = st.rawCollection ++
          [row ++ [if pyInStr "arm64" path = true then "arm64"
                   else if pyInStr "amd64" path = true then "amd64" else ""]])
    ∧ (∀ m, metricOfRow row = .ok m →
        (m.xfail = "True" ∨ (cfa ≠ "" ∧ pyInStr cfa path = false)) →
        processRow true cfa path st row = .ok
          { rawCollection := st.rawCollection ++
              [row ++ [if pyInStr "arm64" path = true then "arm64"
                       else if pyInStr "amd64" path = true then "amd64" else ""]],
            recorded := st.recorded }) := by
  have hunfold : processRow true cfa path st row =
      match metricOfRow row with
      | .error e => .error e
      | .ok m =>
        match foldRecord cfa path st.recorded m with
        | .error e => .error e
        | .ok rec2 => .ok (RunState.mk
            (append_row_to_raw_collection st.rawCollection row (archLabel path)) rec2) := rfl
  constructor
  · intro st' h
    rw [hunfold] at h
    cases hm : metricOfRow row with
    | error e => simp only [hm] at h; cases h
    | ok m =>
      cases hf : foldRecord cfa path st.recorded m with
      | error e => simp only [hm, hf] at h; cases h
      | ok rec2 =>
        simp only [hm, hf] at h
        cases h
        simp [append_row_to_raw_collection, archLabel]
  · intro m hm hsupp
    have hf : foldRecord cfa path st.recorded m = .ok st.recorded := by
      rcases hsupp with hx | hfl
      · simp [foldRecord, hx]
      · by_cases hx : m.xfail = "True"
        · simp [foldRecord, hx]
        · simp [foldRecord, hx, hfl]
    rw [hunfold]
    simp only [hm, hf]
    simp [append_row_to_raw_collection, archLabel]

theorem find?_first {α : Type} (p : α → Bool) (l₁ l₂ : List α) (k : α)
    (h1 : ∀ x ∈ l₁, p x = false) (h2 : p k = true) :
    List.find? p (l₁ ++ k :: l₂) = some k := by
  induction l₁ with
  | nil =>
    rw [List.nil_append]
    exact List.find?_cons_of_pos _ h2
  | cons a as ih =>
    have ha := h1 a (List.mem_cons_self _ _)
    rw [List.cons_append, List.find?_cons_of_neg _ (by simp [ha])]
    exact ih (fun x hx => h1 x (List.mem_cons_of_mem _ hx))

/-- C5: for a record with empty `exception` and numeric response code at
least 300, the engine scans the operation's current error keys in mapping
order: if `k` is the first key occurring as a substring of
`response_data`, exactly `errors[k]` is incremented by 1 (every other
error count unchanged); if no key occurs, no error count changes. -/
theorem C5_heuristic_first_match (cfa path : String) (agg agg' : AggregateReport) (m : Metric)
    (hexc : m.exception = "") (c : Int) (hcode : pyInt m.response_code = some c)
    (hge : 300 ≤ c) (sc : ServiceCov) (hs : dlookup agg m.service = some sc)
    (oc : OperationCov) (ho : dlookup sc.ops m.operation = some oc)
    (hok : foldRecord cfa path agg m = .ok agg')
    (hp : passes cfa path m = true) :
    (∀ l₁ k l₂, dkeys (oc.errors.getD []) = l₁ ++ k :: l₂ →
        (∀ k' ∈ l₁, pyInStr k' m.response_data = false) →
        pyInStr k m.response_data = true →
        ∀ e, errorOf agg' m.service m.operation e =
          errorOf agg m.service m.operation e + (if e = k then 1 else 0))
    ∧ ((∀ k ∈ dkeys (oc.errors.getD []), pyInStr k m.response_data = false) →
        ∀ e, errorOf agg' m.service m.operation e = errorOf agg m.service m.operation e) := by
  rcases foldRecord_ok_cases cfa path agg agg' m hok with ⟨hp', _⟩ |
    ⟨_, sc₀, ops0, ops2, ops4, hs₀, ho₀, he, hpar, rfl⟩
  · rw [hp] at hp'; cases hp'
  · rw [hs] at hs₀
    injection hs₀ with hsc
    subst hsc
    rw [ho] at ho₀
    injection ho₀ with hoc
    subst hoc
    have hpF := parameterAccounting_frame _ _ _ hpar
    have htF := testAccounting_frame ops4 m
    have hs' : dlookup (dinsert m.service
        { sc with ops := dinsert m.operation (testAccounting ops4 m) sc.ops } agg) m.service
        = some { sc with ops := dinsert m.operation (testAccounting ops4 m) sc.ops } :=
      dlookup_dinsert_self _ _ _
    have ho' : dlookup (dinsert m.operation (testAccounting ops4 m) sc.ops) m.operation
        = some (testAccounting ops4 m) := dlookup_dinsert_self _ _ _
    have herrs4 : (testAccounting ops4 m).errors = ops2.errors := by
      rw [htF.2.2]
      simpa using hpF.2.1
    constructor
    · intro l₁ k l₂ hdec h1 h2 e
      have hkmem : k ∈ dkeys (oc.errors.getD []) := by
        rw [hdec]
        exact List.mem_append_right _ (List.mem_cons_self _ _)
      obtain ⟨v, hv⟩ := Option.isSome_iff_exists.mp
        (dlookup_isSome_of_mem _ _ hkmem)
      have hfind : (dkeys (oc.errors.getD [])).find?
          (fun x => pyInStr x m.response_data) = some k := by
        rw [hdec]
        exact find?_first _ _ _ _ h1 h2
      have hcomp : errorAccounting { oc with errors := some (oc.errors.getD []) } m =
          .ok { oc with errors := some (dinsert k (v + 1) (oc.errors.getD [])) } := by
        simp [errorAccounting, hexc, hcode, hge, hfind, hv]
      rw [hcomp] at he
      injection he with he2
      rw [errorOf_eq _ _ _ _ _ _ hs' ho', errorOf_eq _ _ _ _ _ _ hs ho]
      rw [herrs4, ← he2]
      by_cases hek : e = k
      · subst hek
        simp [dlookupD, dlookup_dinsert_self, hv]
      · simp [dlookupD, dlookup_dinsert_ne _ _ _ _ hek, hek]
    · intro hnone e
      have hfind : (dkeys (oc.errors.getD [])).find?
          (fun x => pyInStr x m.response_data) = none := by
        rw [List.find?_eq_none]
        intro x hx
        simp [hnone x hx]
      have hcomp : errorAccounting { oc with errors := some (oc.errors.getD []) } m =
          .ok { oc with errors := some (oc.errors.getD []) } := by
        simp [errorAccounting, hexc, hcode, hge, hfind]
      rw [hcomp] at he
      injection he with he2
      rw [errorOf_eq _ _ _ _ _ _ hs' ho', errorOf_eq _ _ _ _ _ _ hs ho]
      rw [herrs4, ← he2]
      simp

theorem C5_heuristic_first_match_witness :
    errorOf ((foldRecord "" "f1.csv" exAgg mHeur).toOption.getD []) "s" "o" "E1" =
      errorOf exAgg "s" "o" "E1" + (if "E1" = "E1" then 1 else 0) :=
  (C5_heuristic_first_match "" "f1.csv" exAgg
      ((foldRecord "" "f1.csv" exAgg mHeur).toOption.getD []) mHeur rfl 404 rfl
      (by decide)
      { service_attributes := some { pro := false, community := true },
        ops := [("o", { invoked := 0, parameters := some [("p1", 0)],
                        errors := some [("E1", 0)], tests := none })] } rfl
      { invoked := 0, parameters := some [("p1", 0)],
        errors := some [("E1", 0)], tests := none } rfl
      (by decide) (by decide)).1
    [] "E1" [] rfl (by simp) (by decide) "E1"

/-- The `for p in metric.parameters.split(",")` loop: if some name in the
list is absent from the dict's keys, the loop raises KeyError (the fold
never returns ok). -/
theorem paramLoop_not_ok (l : List String) (ps ps2 : List (String × Nat)) :
    (∃ p ∈ l, p ∉ dkeys ps) →
    l.foldlM
      (fun ps p =>
        match dlookup ps p with
        | some v => Except.ok (dinsert p (v + 1) ps)
        | none => Except.error "KeyError: parameter name") ps ≠ Except.ok ps2 := by
  induction l generalizing ps with
  | nil =>
    rintro ⟨p, hp, _⟩
    simp at hp
  | cons a as ih =>
    rintro ⟨p, hpmem, hpnotin⟩ h
    rw [List.foldlM_cons] at h
    cases hl : dlookup ps a with
    | none => rw [hl] at h; cases h
    | some v =>
      rw [hl] at h
      have hamem : a ∈ dkeys ps := mem_dkeys_of_dlookup _ _ _ hl
      rcases List.mem_cons.mp hpmem with rfl | hpin
      · exact hpnotin hamem
      · exact ih (dinsert a (v + 1) ps)
          ⟨p, hpin, by rwa [dkeys_dinsert_of_mem _ _ _ hamem]⟩ h

/-- C8: a non-suppressed record whose service or operation is missing from
the skeleton, or whose non-empty `parameters` field names a parameter
absent from the operation's parameters mapping, makes `foldRecord` raise (a
KeyError) instead of skipping or partially counting the record; the Python
exception propagates and aborts the run before any output is written. -/
theorem C8_hard_errors (cfa path : String) (agg : AggregateReport) (m : Metric)
    (hx : m.xfail ≠ "True") (harch : cfa = "" ∨ pyInStr cfa path = true) :
    (dlookup agg m.service = none → exceptIsOk (foldRecord cfa path agg m) = false)
    ∧ (∀ sc, dlookup agg m.service = some sc → dlookup sc.ops m.operation = none →
        exceptIsOk (foldRecord cfa path agg m) = false)
    ∧ (∀ sc oc, dlookup agg m.service = some sc → dlookup sc.ops m.operation = some oc →
        m.parameters ≠ "" →
        (∃ p ∈ pySplitComma m.parameters, p ∉ dkeys (oc.parameters.getD [])) →
        exceptIsOk (foldRecord cfa path agg m) = false) := by
  have hf : ¬(cfa ≠ "" ∧ pyInStr cfa path = false) := by
    rcases harch with h | h <;> simp [h]
  refine ⟨?_, ?_, ?_⟩
  · intro hserv
    simp [foldRecord, hx, hf, hserv, exceptIsOk]
  · intro sc hserv hop
    simp [foldRecord, hx, hf, hserv, hop, exceptIsOk]
  · intro sc oc hserv hop hne hbad
    cases he : errorAccounting { oc with errors := some (oc.errors.getD []) } m with
    | error e => simp [foldRecord, hx, hf, hserv, hop, he, exceptIsOk]
    | ok ops2 =>
      have heF := errorAccounting_frame _ _ _ he
      have hps2 : ops2.parameters = oc.parameters := by simpa using heF.2.1
      cases hpar : parameterAccounting { ops2 with invoked := ops2.invoked + 1 } m with
      | error e => simp [foldRecord, hx, hf, hserv, hop, he, hpar, exceptIsOk]
      | ok ops4 =>
        exfalso
        revert hpar
        by_cases hpcase : oc.parameters = none
        · simp [parameterAccounting, hne, hps2, hpcase]
        · obtain ⟨params, hparams⟩ := Option.ne_none_iff_exists'.mp hpcase
          have hfoldfail := paramLoop_not_ok (pySplitComma m.parameters) params
          simp only [parameterAccounting, hne, if_neg hne, hps2, hparams]
          cases hfold : (pySplitComma m.parameters).foldlM
              (fun ps p =>
                match dlookup ps p with
                | some v => Except.ok (dinsert p (v + 1) ps)
                | none => Except.error "KeyError: parameter name") params with
          | error e => simp [hfold]
          | ok params2 =>
            exact absurd hfold (hfoldfail params2 (by simpa [hparams] using hbad))

theorem C8_hard_errors_witness :
    exceptIsOk (foldRecord "" "f1.csv" exAgg mNoService) = false :=
  (C8_hard_errors "" "f1.csv" exAgg mNoService (by decide) (Or.inl rfl)).1 rfl

theorem dlookup_foldl_initStep_not_mem (l : Catalog) (acc : AggregateReport) (s : String)
    (h : ∀ e ∈ l, e.1 ≠ s) :
    dlookup (l.foldl initStep acc) s = dlookup acc s := by
  induction l generalizing acc with
  | nil => simp
  | cons e es ih =>
    rw [List.foldl_cons]
    rw [ih _ (fun y hy => h y (List.mem_cons_of_mem _ hy))]
    cases hload : e.2.load with
    | none => simp [initStep, hload]
    | some opsL =>
      simp only [initStep, hload]
      exact dlookup_dinsert_ne _ _ _ _
        (fun hh => h e (List.mem_cons_self _ _) hh.symm)

/-- What the skeleton holds at key `s` when `(s, cs)` is a catalog entry
and catalog keys are distinct (as Python dict keys are). -/
theorem dlookup_init_of_mem (catalog : Catalog) (s : String) (cs : CatalogService)
    (hmem : (s, cs) ∈ catalog) (hnd : (catalog.map Prod.fst).Nodup) (acc : AggregateReport) :
    dlookup (catalog.foldl initStep acc) s =
      (match cs.load with
       | none => dlookup acc s
       | some opsL => some (mkServiceCov cs.providers opsL)) := by
  induction catalog generalizing acc with
  | nil => simp at hmem
  | cons e es ih =>
    rw [List.foldl_cons]
    rcases List.mem_cons.mp hmem with rfl | hmem'
    · have hnot : ∀ y ∈ es, y.1 ≠ s := by
        intro y hy heq
        have : s ∈ es.map Prod.fst := heq ▸ List.mem_map_of_mem Prod.fst hy
        exact (List.nodup_cons.mp hnd).1 this
      rw [dlookup_foldl_initStep_not_mem es _ s hnot]
      cases hload : cs.load with
      | none => simp [initStep, hload]
      | some opsL =>
        simp only [initStep, hload]
        exact dlookup_dinsert_self _ _ _
    · have hsin : s ∈ es.map Prod.fst := by
        simpa using List.mem_map_of_mem Prod.fst hmem'
      have hne : e.1 ≠ s := fun heq => (List.nodup_cons.mp hnd).1 (by rw [heq]; exact hsin)
      have hstep : dlookup (initStep acc e) s = dlookup acc s := by
        cases hload : e.2.load with
        | none => simp [initStep, hload]
        | some opsL =>
          simp only [initStep, hload]
          exact dlookup_dinsert_ne _ _ _ _ (fun hh => hne hh.symm)
      rw [ih hmem' (List.nodup_cons.mp hnd).2 (initStep acc e)]
      cases cs.load with
      | none => simp [hstep]
      | some opsL => simp

theorem dlookup_mkServiceOps_not_mem (opsL : List CatalogOp)
    (acc : List (String × OperationCov)) (s : String)
    (h : ∀ op ∈ opsL, op.name ≠ s) :
    dlookup (opsL.foldl (fun os op => dinsert op.name (mkOperationCov op) os) acc) s =
      dlookup acc s := by
  induction opsL generalizing acc with
  | nil => simp
  | cons op ops ih =>
    rw [List.foldl_cons]
    rw [ih _ (fun y hy => h y (List.mem_cons_of_mem _ hy))]
    exact dlookup_dinsert_ne _ _ _ _
      (fun hh => h op (List.mem_cons_self _ _) hh.symm)

theorem dlookup_foldl_ops_of_mem (opsL : List CatalogOp) (op : CatalogOp)
    (acc : List (String × OperationCov))
    (hmem : op ∈ opsL) (hnd : (opsL.map CatalogOp.name).Nodup) :
    dlookup (opsL.foldl (fun os x => dinsert x.name (mkOperationCov x) os) acc) op.name =
      some (mkOperationCov op) := by
  induction opsL generalizing acc with
  | nil => simp at hmem
  | cons y ys ih =>
    rw [List.foldl_cons]
    rcases List.mem_cons.mp hmem with rfl | hmem'
    · have hnot : ∀ z ∈ ys, z.name ≠ op.name := by
        intro z hz heq
        exact (List.nodup_cons.mp hnd).1 (by rw [← heq]; exact List.mem_map_of_mem _ hz)
      rw [dlookup_mkServiceOps_not_mem ys _ _ hnot]
      exact dlookup_dinsert_self _ _ _
    · exact ih _ hmem' (List.nodup_cons.mp hnd).2

theorem dlookup_mkServiceOps_of_mem (opsL : List CatalogOp) (op : CatalogOp)
    (hmem : op ∈ opsL) (hnd : (opsL.map CatalogOp.name).Nodup) :
    dlookup (mkServiceOps opsL) op.name = some (mkOperationCov op) :=
  dlookup_foldl_ops_of_mem opsL op [] hmem hnd

theorem dlookup_zeroDict_not_mem (names : List String) (acc : List (String × Nat))
    (x : String) (h : x ∉ names) :
    dlookup (names.foldl (fun d n => dinsert n 0 d) acc) x = dlookup acc x := by
  induction names generalizing acc with
  | nil => simp
  | cons y ys ih =>
    rw [List.foldl_cons, ih _ (fun hh => h (List.mem_cons_of_mem _ hh))]
    exact dlookup_dinsert_ne _ _ _ _
      (fun hh => h (by rw [hh]; exact List.mem_cons_self _ _))

/-- Zero-initialised parameter / error dict: every declared name maps to 0. -/
theorem dlookup_zeroDict (names : List String) (acc : List (String × Nat)) (x : String)
    (hmem : x ∈ names) :
    dlookup (names.foldl (fun d n => dinsert n 0 d) acc) x = some 0 := by
  induction names generalizing acc with
  | nil => simp at hmem
  | cons y ys ih =>
    rw [List.foldl_cons]
    by_cases hx : x ∈ ys
    · exact ih _ hx
    · rcases List.mem_cons.mp hmem with rfl | h'
      · rw [dlookup_zeroDict_not_mem ys _ _ hx]
        exact dlookup_dinsert_self _ _ _
      · exact absurd h' hx

/-- C9: in the freshly built skeleton, every service whose catalog entry
loads appears with its tier attributes, and (for distinct operation names,
as catalogs have) every declared operation appears with `invoked = 0`,
every declared input member at count 0 and every declared error name at
count 0; a service whose entry fails to load is simply absent - its
failure is logged and does not abort the construction of the others. -/
theorem C9_skeleton (catalog : Catalog) (hnd : (catalog.map Prod.fst).Nodup)
    (s : String) (cs : CatalogService) (hmem : (s, cs) ∈ catalog) :
    (cs.load = none → dlookup (_init_service_metric_counter catalog) s = none)
    ∧ (∀ opsL, cs.load = some opsL →
        dlookup (_init_service_metric_counter catalog) s = some (mkServiceCov cs.providers opsL)
        ∧ (mkServiceCov cs.providers opsL).service_attributes =
            some { pro := cs.providers.contains "pro",
                   community := cs.providers.contains "default" }
        ∧ ((opsL.map CatalogOp.name).Nodup → ∀ op ∈ opsL,
            dlookup (mkServiceCov cs.providers opsL).ops op.name = some (mkOperationCov op))
        ∧ (∀ op : CatalogOp, (mkOperationCov op).invoked = 0
            ∧ (∀ ms, op.inputMembers = some ms →
                ∀ p ∈ ms, dlookup ((mkOperationCov op).parameters.getD []) p = some 0)
            ∧ (∀ es, op.errorShapes = some es →
                ∀ e ∈ es, dlookup ((mkOperationCov op).errors.getD []) e = some 0))) := by
  have hbase := dlookup_init_of_mem catalog s cs hmem hnd []
  constructor
  · intro hload
    rw [_init_service_metric_counter, hbase, hload]
    simp [dlookup]
  · intro opsL hload
    refine ⟨?_, rfl, ?_, ?_⟩
    · rw [_init_service_metric_counter, hbase, hload]
    · intro hopnd op hop
      exact dlookup_mkServiceOps_of_mem opsL op hop hopnd
    · intro op
      refine ⟨rfl, ?_, ?_⟩
      · intro ms hms p hp
        simp only [mkOperationCov, hms, Option.map_some, Option.getD_some]
        exact dlookup_zeroDict ms [] p hp
      · intro es hes e he
        simp only [mkOperationCov, hes, Option.map_some, Option.getD_some]
        exact dlookup_zeroDict es [] e he

theorem clearAttrs_clearAttrs (sc : ServiceCov) : clearAttrs (clearAttrs sc) = clearAttrs sc :=
  rfl

/-- One renderer iteration: on success it replaced the service's entry by
the same entry with `service_attributes` deleted, and touched no other
entry (`dinsert` on an existing key). -/
theorem renderService_metrics (acc : String × List String × AggregateReport) (service : String)
    (out : String × List String × AggregateReport)
    (h : renderService acc service = .ok out) :
    ∃ details, dlookup acc.2.2 service = some details ∧
      out.2.2 = dinsert service (clearAttrs details) acc.2.2 := by
  cases hd : dlookup acc.2.2 service with
  | none => simp [renderService, hd] at h
  | some details =>
    cases ha : details.service_attributes with
    | none => simp [renderService, hd, ha] at h
    | some attrs =>
      cases hro : renderOps details.ops with
      | error e => simp [renderService, hd, ha, hro] at h
      | ok tt =>
        by_cases hlen : details.ops.length = 0
        · simp [renderService, hd, ha, hro, hlen] at h
        · refine ⟨details, rfl, ?_⟩
          simp [renderService, hd, ha, hro, hlen] at h
          rw [← h]
          rfl

/-- The renderer loop over a list of service names: keys are preserved, and
every processed name has its `service_attributes` cleared (clearing is
idempotent, so duplicates are harmless). -/
theorem renderFold_metrics (ns : List String) (acc : String × List String × AggregateReport)
    (out : String × List String × AggregateReport)
    (h : ns.foldlM renderService acc = .ok out) :
    dkeys out.2.2 = dkeys acc.2.2 ∧
    ∀ s, dlookup out.2.2 s =
      if s ∈ ns then (dlookup acc.2.2 s).map clearAttrs else dlookup acc.2.2 s := by
  induction ns generalizing acc with
  | nil =>
    simp only [List.foldlM_nil] at h
    cases h
    simp
  | cons a as ih =>
    rw [List.foldlM_cons] at h
    cases hstep : renderService acc a with
    | error e => rw [hstep] at h; cases h
    | ok acc1 =>
      rw [hstep] at h
      obtain ⟨details, hd, hm1⟩ := renderService_metrics acc a acc1 hstep
      have h2 := ih acc1 h
      have hdmem : a ∈ dkeys acc.2.2 := mem_dkeys_of_dlookup _ _ _ hd
      constructor
      · rw [h2.1, hm1, dkeys_dinsert_of_mem _ _ _ hdmem]
      · intro s
        rw [h2.2 s]
        by_cases hsa : s = a
        · subst hsa
          have hlook1 : dlookup acc1.2.2 s = some (clearAttrs details) := by
            rw [hm1]; exact dlookup_dinsert_self _ _ _
          by_cases hin : s ∈ as
          · simp [hin, hlook1, hd, clearAttrs_clearAttrs]
          · simp [hin, hlook1, hd]
        · have hlook1 : dlookup acc1.2.2 s = dlookup acc.2.2 s := by
            rw [hm1]; exact dlookup_dinsert_ne _ _ _ _ hsa
          by_cases hin : s ∈ as
          · simp [hin, hsa, hlook1]
          · simp [hin, hsa, hlook1]

/-- C3 as stated is false: the renderer mutates the aggregate.  Rendering
the one-service aggregate `exAgg` deletes its `service_attributes` entry:
the structure handed back differs from the one passed in. -/
theorem C3_counterexample :
    Except.map Prod.snd (create_readable_report exAgg) = Except.ok exAggRendered
    ∧ exAggRendered ≠ exAgg := by
  decide

/-- C3 amended: the renderer's only mutation of the aggregate is deleting
each service's `service_attributes` entry (line 43): on success the key
set is unchanged and every service maps to its old entry with
`service_attributes` removed; operations, counters and tests are intact. -/
theorem C3_renderer_mutation (metrics : AggregateReport) (chunks : List String)
    (metrics' : AggregateReport)
    (h : create_readable_report metrics = .ok (chunks, metrics')) :
    dkeys metrics' = dkeys metrics ∧
    ∀ s, dlookup metrics' s = (dlookup metrics s).map clearAttrs := by
  simp only [create_readable_report] at h
  cases hf : (sortStrings (dkeys metrics)).foldlM renderService
      ("# Metric Collection Report of Integration Tests #\n\n" ++
        "**__Disclaimer__**: naive calculation of test coverage - if operation is called at least once, it is considered as 'covered'.\n",
       ([] : List String), metrics) with
  | error e => simp only [hf] at h; cases h
  | ok acc =>
    simp only [hf] at h
    injection h with h2
    have hmetrics : acc.2.2 = metrics' := congrArg Prod.snd h2
    have hr := renderFold_metrics _ _ _ hf
    constructor
    · rw [← hmetrics, hr.1]
    · intro s
      rw [← hmetrics, hr.2 s]
      by_cases hin : s ∈ dkeys metrics
      · simp [(mem_sortStrings s _).mpr hin, hin]
      · have : s ∉ sortStrings (dkeys metrics) := fun hh => hin ((mem_sortStrings s _).mp hh)
        simp [this, dlookup_eq_none_of_not_mem _ _ hin]

theorem C3_renderer_mutation_witness :
    dkeys ((create_readable_report exAgg).toOption.getD ([], [])).2 = dkeys exAgg
    ∧ dlookup ((create_readable_report exAgg).toOption.getD ([], [])).2 "s" =
        (dlookup exAgg "s").map clearAttrs :=
  ⟨(C3_renderer_mutation exAgg ((create_readable_report exAgg).toOption.getD ([], [])).1
      ((create_readable_report exAgg).toOption.getD ([], [])).2 (by decide)).1,
   (C3_renderer_mutation exAgg ((create_readable_report exAgg).toOption.getD ([], [])).1
      ((create_readable_report exAgg).toOption.getD ([], [])).2 (by decide)).2 "s"⟩

theorem C9_skeleton_witness :
    dlookup (_init_service_metric_counter exCat) "good" =
      some (mkServiceCov ["default", "pro"]
        [{ name := "Op1", inputMembers := some ["p1"], errorShapes := some ["E1"] }]) :=
  ((C9_skeleton exCat (by decide) "good"
      { providers := ["default", "pro"],
        load := some [{ name := "Op1", inputMembers := some ["p1"],
                        errorShapes := some ["E1"] }] }
      (by decide)).2
    [{ name := "Op1", inputMembers := some ["p1"], errorShapes := some ["E1"] }] rfl).1

theorem C6_raw_collection_witness :
    processRow true "arm64" "reports/amd64/f1.csv"
      { rawCollection := [], recorded := exAgg } exRow = .ok
      { rawCollection := [exRow ++ [if pyInStr "arm64" "reports/amd64/f1.csv" = true then "arm64"
          else if pyInStr "amd64" "reports/amd64/f1.csv" = true then "amd64" else ""]],
        recorded := exAgg } :=
  (C6_raw_collection "arm64" "reports/amd64/f1.csv"
      { rawCollection := [], recorded := exAgg } exRow).2
    ⟨"t6", "s", "o", "", "", "200", "", "False"⟩ rfl
    (Or.inr ⟨by decide, by decide⟩)

end MetricAggregator
